import Mathlib

/-!
Verification of the polling/dedup/extract/summarize pipeline of
`glance.py` (repository PragmaticsGhost/Glance).

The program is a single synchronous loop (`main`, lines 109-160):
each iteration ("tick") reads `driver.current_url` (which may raise),
filters empty and `about:`-scheme addresses, consults the in-memory
set `processed_urls`, and for a new valid address runs
`extract_text_from_url` then `summarize_text`, printing the summary and
adding the address to `processed_urls` on success.  Each `try/except`
converts a stage failure into a logged message plus a 5-second wait.
The entry point (lines 165-171) wraps `main()` in
`try/except KeyboardInterrupt/finally driver.quit()`.

Shallow embedding: one tick is a pure function from the current
processed set and an oracle of external outcomes (`TickInput`: the
result of the URL read, and the results extraction and summarization
would return if invoked) to a list of atomic actions (`Act`).  The
processed set after a trace is recovered by folding the
`addProcessed` actions, so interruption at an arbitrary program point
is modelled by truncating the action trace.
-/

deriving instance DecidableEq for Except

namespace Glance

/-- Outcomes the external world supplies to one tick of the loop:
the result of reading `driver.current_url` (line 123, may raise),
and the values `extract_text_from_url` (line 141) and
`summarize_text` (line 149) would produce if the tick invokes them.
`Except.error e` models a raised exception with message `e`. -/
structure TickInput where
  currentUrl : Except String String
  extractResult : Except String String
  summarizeResult : Except String String
deriving Repr, DecidableEq

/-- Atomic observable actions of one run of the loop, in program order.
`announce u` is the `Processing new URL` print (line 137);
`extractCall u` marks the invocation of `extract_text_from_url u`
(line 141); `summarizeCall u t` marks the invocation of
`summarize_text t` during the tick whose current address is `u`
(line 149); `emitSummary u s` is the summary print (line 150);
`addProcessed u` is `processed_urls.add(u)` (line 157); `sleep` is a
`time.sleep(5)` (lines 127, 132, 144, 153, 160); `printExiting` and
`quitDriver` are the shutdown actions of the entry point
(lines 169, 171). -/
inductive Act where
  | urlError (e : String)
  | announce (u : String)
  | extractCall (u : String)
  | extractError (u e : String)
  | summarizeCall (u text : String)
  | summarizeError (e : String)
  | emitSummary (u s : String)
  | addProcessed (u : String)
  | sleep
  | printExiting
  | quitDriver
deriving Repr, DecidableEq

/-- Python `s.startswith(pre)` on code points, used to embed
`current_url.startswith("about:")` (line 131). -/
def pyStartsWith (s pre : String) : Bool :=
  pre.data.isPrefixOf s.data

/-- The sanity check of line 131: `not current_url or
current_url.startswith("about:")` — a Python `str` is falsy exactly
when it is empty. -/
def invalidUrl (u : String) : Bool :=
  u == "" || pyStartsWith u "about:"

/-- One iteration of the `while True` body (lines 121-160), as the
list of atomic actions it performs, given the processed set and the
tick's external outcomes. -/
def tickActs (processed : List String) (inp : TickInput) : List Act :=
  match inp.currentUrl with
  | Except.error e => [Act.urlError e, Act.sleep]
  | Except.ok u =>
    if invalidUrl u then [Act.sleep]
    else if u ∈ processed then [Act.sleep]
    else
      match inp.extractResult with
      | Except.error e =>
          [Act.announce u, Act.extractCall u, Act.extractError u e, Act.sleep]
      | Except.ok text =>
        match inp.summarizeResult with
        | Except.error e =>
            [Act.announce u, Act.extractCall u, Act.summarizeCall u text,
             Act.summarizeError e, Act.sleep]
        | Except.ok s =>
            [Act.announce u, Act.extractCall u, Act.summarizeCall u text,
             Act.emitSummary u s, Act.addProcessed u, Act.sleep]

/-- Effect of one action on the processed set: only
`addProcessed u` (line 157) changes it. -/
def actAdd (processed : List String) (a : Act) : List String :=
  match a with
  | Act.addProcessed u => u :: processed
  | _ => processed

/-- Processed set after executing a trace of actions from a given set. -/
def applyActs (processed : List String) (acts : List Act) : List String :=
  acts.foldl actAdd processed

/-- The full action trace of running the loop through a finite list of
tick inputs, threading the processed set (initially `set()`, line 116). -/
def run (processed : List String) : List TickInput → List Act
  | [] => []
  | inp :: rest =>
    tickActs processed inp ++
      run (applyActs processed (tickActs processed inp)) rest

/-- Processed set after running the loop through the given tick inputs. -/
def runState (processed : List String) (inps : List TickInput) : List String :=
  applyActs processed (run processed inps)

/-- A run of the entry point (lines 165-171) interrupted by
`KeyboardInterrupt` after `k` atomic actions: the executed part of the
loop trace, then the `except` handler's print (line 169) and the
`finally` clause's `driver.quit()` (line 171). -/
def runInterrupted (inps : List TickInput) (k : Nat) : List Act :=
  (run [] inps).take k ++ [Act.printExiting, Act.quitDriver]

/-- Calls `extract_text_from_url url` (lines 85-92) issues on the
driver: `driver.get(url)` (line 89), `time.sleep(2)` (line 90), and
the body-element text read (lines 91-92). -/
inductive DriverCall where
  | get (url : String)
  | sleepSecs (n : Nat)
  | findBodyText
deriving Repr, DecidableEq

/-- The driver calls performed by `extract_text_from_url url`
(lines 85-92), in program order. -/
def extract_text_from_url_calls (url : String) : List DriverCall :=
  [DriverCall.get url, DriverCall.sleepSecs 2, DriverCall.findBodyText]

/-- One message of a chat-completion request (line 101). -/
structure ChatMessage where
  role : String
  content : String
deriving Repr, DecidableEq

/-- The request `summarize_text` sends (lines 98-103). -/
structure ChatRequest where
  model : String
  messages : List ChatMessage
deriving Repr, DecidableEq

/-- Default of the `model` parameter of `summarize_text` (line 94). -/
def summarize_text_default_model : String := "gpt-4"

/-- Request built by `summarize_text text model` (lines 94-103): the
model as passed and one user message whose content is the f-string
`"Summarize this text:\n" ++ text` (line 101). -/
def summarize_text_request (text model : String) : ChatRequest :=
  { model := model
    messages := [{ role := "user", content := "Summarize this text:\n" ++ text }] }

/-- The request as built at the pipeline's only call site,
`summarize_text(extracted_text)` (line 149): the `model` argument is
left at its default `"gpt-4"`. -/
def main_summarize_request (text : String) : ChatRequest :=
  summarize_text_request text summarize_text_default_model

/-- Tick-input oracle for the dedup/ordering scenario: addresses
`["", "about:blank", p1, p1, p2]` observed on successive ticks, with
extraction and summarization succeeding whenever invoked. -/
def c4Inputs : List TickInput :=
  [⟨Except.ok "", Except.ok "T0", Except.ok "S0"⟩,
   ⟨Except.ok "about:blank", Except.ok "T1", Except.ok "S1"⟩,
   ⟨Except.ok "https://x.test/p1", Except.ok "T1", Except.ok "S1"⟩,
   ⟨Except.ok "https://x.test/p1", Except.ok "T1", Except.ok "S1"⟩,
   ⟨Except.ok "https://x.test/p2", Except.ok "T2", Except.ok "S2"⟩]

/-- Recognizer for summarization invocations in a trace. -/
def isSummarizeCall : Act → Bool
  | Act.summarizeCall _ _ => true
  | _ => false

/-- Recognizer for summary emissions in a trace. -/
def isEmit : Act → Bool
  | Act.emitSummary _ _ => true
  | _ => false

lemma applyActs_cons (p : List String) (a : Act) (acts : List Act) :
    applyActs p (a :: acts) = applyActs (actAdd p a) acts := rfl

lemma applyActs_append (p : List String) (xs ys : List Act) :
    applyActs p (xs ++ ys) = applyActs (applyActs p xs) ys :=
  List.foldl_append _ _ _ _

set_option linter.unnecessarySeqFocus false in
lemma mem_applyActs_iff (A : String) (p : List String) (acts : List Act) :
    A ∈ applyActs p acts ↔ A ∈ p ∨ Act.addProcessed A ∈ acts := by
  induction acts generalizing p with
  | nil => simp [applyActs]
  | cons a rest ih =>
    rw [applyActs_cons, ih]
    cases a <;> simp [actAdd] <;> tauto

lemma mem_applyActs_of_mem {A : String} {p : List String} (acts : List Act)
    (h : A ∈ p) : A ∈ applyActs p acts :=
  (mem_applyActs_iff A p acts).mpr (Or.inl h)

lemma applyActs_eq_of_no_add {p : List String} {acts : List Act}
    (h : ∀ A, Act.addProcessed A ∉ acts) : applyActs p acts = p := by
  induction acts generalizing p with
  | nil => rfl
  | cons a rest ih =>
    rw [applyActs_cons]
    have ha : actAdd p a = p := by
      cases a with
      | addProcessed u => exact absurd (List.mem_cons_self _ _) (h u)
      | _ => rfl
    rw [ha]
    exact ih fun A hA => h A (List.mem_cons_of_mem _ hA)

lemma run_nil (p : List String) : run p [] = [] := rfl

lemma run_cons (p : List String) (inp : TickInput) (inps : List TickInput) :
    run p (inp :: inps) =
      tickActs p inp ++ run (applyActs p (tickActs p inp)) inps := rfl

lemma runState_nil (p : List String) : runState p [] = p := rfl

lemma runState_cons (p : List String) (inp : TickInput) (inps : List TickInput) :
    runState p (inp :: inps) = runState (applyActs p (tickActs p inp)) inps := by
  unfold runState
  rw [run_cons, applyActs_append]

/-- Exhaustive case analysis of one tick: the six paths of the loop
body (URL-read failure, invalid address, known address, extraction
failure, summarization failure, success) with the exact action list
each produces. -/
lemma tickActs_shape (p : List String) (inp : TickInput) :
    (∃ e, inp.currentUrl = Except.error e ∧
       tickActs p inp = [Act.urlError e, Act.sleep])
  ∨ (∃ u, inp.currentUrl = Except.ok u ∧ invalidUrl u = true ∧
       tickActs p inp = [Act.sleep])
  ∨ (∃ u, inp.currentUrl = Except.ok u ∧ invalidUrl u = false ∧ u ∈ p ∧
       tickActs p inp = [Act.sleep])
  ∨ (∃ u e, inp.currentUrl = Except.ok u ∧ invalidUrl u = false ∧ u ∉ p ∧
       inp.extractResult = Except.error e ∧
       tickActs p inp = [Act.announce u, Act.extractCall u,
         Act.extractError u e, Act.sleep])
  ∨ (∃ u t e, inp.currentUrl = Except.ok u ∧ invalidUrl u = false ∧ u ∉ p ∧
       inp.extractResult = Except.ok t ∧ inp.summarizeResult = Except.error e ∧
       tickActs p inp = [Act.announce u, Act.extractCall u,
         Act.summarizeCall u t, Act.summarizeError e, Act.sleep])
  ∨ (∃ u t s, inp.currentUrl = Except.ok u ∧ invalidUrl u = false ∧ u ∉ p ∧
       inp.extractResult = Except.ok t ∧ inp.summarizeResult = Except.ok s ∧
       tickActs p inp = [Act.announce u, Act.extractCall u,
         Act.summarizeCall u t, Act.emitSummary u s, Act.addProcessed u,
         Act.sleep]) := by
  rcases hcu : inp.currentUrl with e | u
  · exact Or.inl ⟨e, rfl, by simp [tickActs, hcu]⟩
  · cases hinv : invalidUrl u with
    | true =>
      exact Or.inr (Or.inl ⟨u, rfl, hinv, by simp [tickActs, hcu, hinv]⟩)
    | false =>
      by_cases hmem : u ∈ p
      · exact Or.inr (Or.inr (Or.inl ⟨u, rfl, hinv, hmem,
          by simp [tickActs, hcu, hinv, hmem]⟩))
      · rcases hex : inp.extractResult with e | t
        · exact Or.inr (Or.inr (Or.inr (Or.inl ⟨u, e, rfl, hinv, hmem, rfl,
            by simp [tickActs, hcu, hinv, hmem, hex]⟩)))
        · rcases hsu : inp.summarizeResult with e | s
          · exact Or.inr (Or.inr (Or.inr (Or.inr (Or.inl
              ⟨u, t, e, rfl, hinv, hmem, rfl, rfl,
               by simp [tickActs, hcu, hinv, hmem, hex, hsu]⟩))))
          · exact Or.inr (Or.inr (Or.inr (Or.inr (Or.inr
              ⟨u, t, s, rfl, hinv, hmem, rfl, rfl,
               by simp [tickActs, hcu, hinv, hmem, hex, hsu]⟩))))

end Glance

namespace Glance

/-- An extraction invocation in a tick identifies its address: it is
the tick's current address, it passed the validity check, and it was
not yet processed. -/
lemma extractCall_mem_tickActs {p : List String} {inp : TickInput} {A : String}
    (h : Act.extractCall A ∈ tickActs p inp) :
    inp.currentUrl = Except.ok A ∧ invalidUrl A = false ∧ A ∉ p := by
  rcases tickActs_shape p inp with
      ⟨e, hcu, heq⟩ | ⟨u, hcu, hinv, heq⟩ | ⟨u, hcu, hinv, hmem, heq⟩ |
      ⟨u, e, hcu, hinv, hmem, hex, heq⟩ |
      ⟨u, t, e, hcu, hinv, hmem, hex, hsu, heq⟩ |
      ⟨u, t, s, hcu, hinv, hmem, hex, hsu, heq⟩ <;>
    rw [heq] at h <;> simp at h <;> subst h <;> exact ⟨hcu, hinv, hmem⟩

/-- A summarization invocation in a tick identifies its address and
text: the address is the tick's current one, fresh and valid, and the
text is the successful extraction result. -/
lemma summarizeCall_mem_tickActs {p : List String} {inp : TickInput}
    {A t : String} (h : Act.summarizeCall A t ∈ tickActs p inp) :
    inp.currentUrl = Except.ok A ∧ invalidUrl A = false ∧ A ∉ p ∧
      inp.extractResult = Except.ok t := by
  rcases tickActs_shape p inp with
      ⟨e, hcu, heq⟩ | ⟨u, hcu, hinv, heq⟩ | ⟨u, hcu, hinv, hmem, heq⟩ |
      ⟨u, e, hcu, hinv, hmem, hex, heq⟩ |
      ⟨u, t0, e, hcu, hinv, hmem, hex, hsu, heq⟩ |
      ⟨u, t0, s, hcu, hinv, hmem, hex, hsu, heq⟩ <;>
    rw [heq] at h <;> simp at h <;>
    (obtain ⟨h1, h2⟩ := h; subst h1; subst h2; exact ⟨hcu, hinv, hmem, hex⟩)

/-- An address is recorded in a tick only on the success path: it is
fresh, valid, currently observed, and both stages succeeded; the
tick's actions are exactly the success sequence, with the summary
emission strictly before the recording. -/
lemma addProcessed_mem_tickActs {p : List String} {inp : TickInput} {A : String}
    (h : Act.addProcessed A ∈ tickActs p inp) :
    A ∉ p ∧ ∃ t s, inp.currentUrl = Except.ok A ∧ invalidUrl A = false ∧
      inp.extractResult = Except.ok t ∧ inp.summarizeResult = Except.ok s ∧
      tickActs p inp = [Act.announce A, Act.extractCall A, Act.summarizeCall A t,
        Act.emitSummary A s, Act.addProcessed A, Act.sleep] := by
  rcases tickActs_shape p inp with
      ⟨e, hcu, heq⟩ | ⟨u, hcu, hinv, heq⟩ | ⟨u, hcu, hinv, hmem, heq⟩ |
      ⟨u, e, hcu, hinv, hmem, hex, heq⟩ |
      ⟨u, t0, e, hcu, hinv, hmem, hex, hsu, heq⟩ |
      ⟨u, t0, s, hcu, hinv, hmem, hex, hsu, heq⟩ <;>
    rw [heq] at h <;> simp at h
  subst h
  exact ⟨hmem, t0, s, hcu, hinv, hex, hsu, heq⟩

/-- A fresh valid observed address is announced and extracted this
tick, and summarized whenever extraction succeeds. -/
lemma processing_tick {p : List String} {inp : TickInput} {A : String}
    (hv : invalidUrl A = false) (hA : A ∉ p)
    (hcu : inp.currentUrl = Except.ok A) :
    Act.announce A ∈ tickActs p inp ∧ Act.extractCall A ∈ tickActs p inp ∧
      ∀ t, inp.extractResult = Except.ok t →
        Act.summarizeCall A t ∈ tickActs p inp := by
  rcases tickActs_shape p inp with
      ⟨e, hcu0, heq⟩ | ⟨u, hcu0, hinv, heq⟩ | ⟨u, hcu0, hinv, hmem, heq⟩ |
      ⟨u, e, hcu0, hinv, hmem, hex, heq⟩ |
      ⟨u, t0, e, hcu0, hinv, hmem, hex, hsu, heq⟩ |
      ⟨u, t0, s, hcu0, hinv, hmem, hex, hsu, heq⟩
  · rw [hcu] at hcu0; exact absurd hcu0 (by simp)
  · rw [hcu] at hcu0
    obtain rfl : u = A := by injection hcu0 with h; exact h.symm
    rw [hinv] at hv; exact absurd hv (by simp)
  · rw [hcu] at hcu0
    obtain rfl : u = A := by injection hcu0 with h; exact h.symm
    exact absurd hmem hA
  · rw [hcu] at hcu0
    obtain rfl : u = A := by injection hcu0 with h; exact h.symm
    refine ⟨by rw [heq]; simp, by rw [heq]; simp, ?_⟩
    intro t ht
    rw [hex] at ht; exact absurd ht (by simp)
  · rw [hcu] at hcu0
    obtain rfl : u = A := by injection hcu0 with h; exact h.symm
    refine ⟨by rw [heq]; simp, by rw [heq]; simp, ?_⟩
    intro t ht
    rw [hex] at ht
    obtain rfl : t0 = t := by injection ht
    rw [heq]; simp
  · rw [hcu] at hcu0
    obtain rfl : u = A := by injection hcu0 with h; exact h.symm
    refine ⟨by rw [heq]; simp, by rw [heq]; simp, ?_⟩
    intro t ht
    rw [hex] at ht
    obtain rfl : t0 = t := by injection ht
    rw [heq]; simp

/-- Every tick performs exactly one wait. -/
lemma count_sleep_tickActs (p : List String) (inp : TickInput) :
    (tickActs p inp).count Act.sleep = 1 := by
  rcases tickActs_shape p inp with
      ⟨e, hcu, heq⟩ | ⟨u, hcu, hinv, heq⟩ | ⟨u, hcu, hinv, hmem, heq⟩ |
      ⟨u, e, hcu, hinv, hmem, hex, heq⟩ |
      ⟨u, t0, e, hcu, hinv, hmem, hex, hsu, heq⟩ |
      ⟨u, t0, s, hcu, hinv, hmem, hex, hsu, heq⟩ <;>
    rw [heq] <;> simp

/-- Every tick's last action is the wait. -/
lemma getLast_tickActs (p : List String) (inp : TickInput) :
    (tickActs p inp).getLast? = some Act.sleep := by
  rcases tickActs_shape p inp with
      ⟨e, hcu, heq⟩ | ⟨u, hcu, hinv, heq⟩ | ⟨u, hcu, hinv, hmem, heq⟩ |
      ⟨u, e, hcu, hinv, hmem, hex, heq⟩ |
      ⟨u, t0, e, hcu, hinv, hmem, hex, hsu, heq⟩ |
      ⟨u, t0, s, hcu, hinv, hmem, hex, hsu, heq⟩ <;>
    rw [heq] <;> simp

/-- The loop itself never releases the driver. -/
lemma quitDriver_not_mem_tickActs (p : List String) (inp : TickInput) :
    Act.quitDriver ∉ tickActs p inp := by
  rcases tickActs_shape p inp with
      ⟨e, hcu, heq⟩ | ⟨u, hcu, hinv, heq⟩ | ⟨u, hcu, hinv, hmem, heq⟩ |
      ⟨u, e, hcu, hinv, hmem, hex, heq⟩ |
      ⟨u, t0, e, hcu, hinv, hmem, hex, hsu, heq⟩ |
      ⟨u, t0, s, hcu, hinv, hmem, hex, hsu, heq⟩ <;>
    rw [heq] <;> simp

lemma quitDriver_not_mem_run (p : List String) (inps : List TickInput) :
    Act.quitDriver ∉ run p inps := by
  induction inps generalizing p with
  | nil => simp [run]
  | cons inp rest ih =>
    rw [run_cons]
    intro h
    rcases List.mem_append.mp h with h | h
    · exact quitDriver_not_mem_tickActs p inp h
    · exact ih _ h

/-- The loop performs exactly one wait per observed tick: no tick
aborts the loop, and no tick is skipped. -/
lemma count_sleep_run (p : List String) (inps : List TickInput) :
    (run p inps).count Act.sleep = inps.length := by
  induction inps generalizing p with
  | nil => simp [run]
  | cons inp rest ih =>
    rw [run_cons, List.count_append, count_sleep_tickActs, ih]
    simp [Nat.add_comm]

end Glance

namespace Glance

/-- C1: Idempotence of processing — once an address A is in the
processed set, no tick of the remainder of the run invokes extraction
or summarization for A (in particular no tick observing A does), and
A remains in the set for the rest of the run. -/
theorem C1_processed_idempotence (p : List String) (A : String) (hA : A ∈ p)
    (inps : List TickInput) :
    A ∈ runState p inps
    ∧ Act.extractCall A ∉ run p inps
    ∧ ∀ t, Act.summarizeCall A t ∉ run p inps := by
  induction inps generalizing p with
  | nil => exact ⟨hA, by simp [run], by simp [run]⟩
  | cons inp rest ih =>
    have hA1 : A ∈ applyActs p (tickActs p inp) := mem_applyActs_of_mem _ hA
    obtain ⟨h1, h2, h3⟩ := ih _ hA1
    refine ⟨by rwa [runState_cons], ?_, ?_⟩
    · rw [run_cons]
      intro h
      rcases List.mem_append.mp h with h | h
      · exact (extractCall_mem_tickActs h).2.2 hA
      · exact h2 h
    · intro t
      rw [run_cons]
      intro h
      rcases List.mem_append.mp h with h | h
      · exact (summarizeCall_mem_tickActs h).2.2.1 hA
      · exact h3 t h

/-- Concrete check of C1: with the address already processed, a tick
observing it again triggers no extraction or summarization and the
address stays recorded. -/
theorem C1_processed_idempotence_witness :
    "https://a.test/x" ∈ runState ["https://a.test/x"]
        [⟨Except.ok "https://a.test/x", Except.ok "T", Except.ok "S"⟩]
    ∧ Act.extractCall "https://a.test/x" ∉ run ["https://a.test/x"]
        [⟨Except.ok "https://a.test/x", Except.ok "T", Except.ok "S"⟩]
    ∧ Act.summarizeCall "https://a.test/x" "T" ∉ run ["https://a.test/x"]
        [⟨Except.ok "https://a.test/x", Except.ok "T", Except.ok "S"⟩] :=
  ⟨(C1_processed_idempotence ["https://a.test/x"] "https://a.test/x" (by simp)
      [⟨Except.ok "https://a.test/x", Except.ok "T", Except.ok "S"⟩]).1,
   (C1_processed_idempotence ["https://a.test/x"] "https://a.test/x" (by simp)
      [⟨Except.ok "https://a.test/x", Except.ok "T", Except.ok "S"⟩]).2.1,
   (C1_processed_idempotence ["https://a.test/x"] "https://a.test/x" (by simp)
      [⟨Except.ok "https://a.test/x", Except.ok "T", Except.ok "S"⟩]).2.2 "T"⟩

/-- C3: Invalid-address filtering — a tick whose current address is
the empty string or starts with the placeholder scheme marker only
waits: it performs no extraction, no summarization, and leaves the
processed set unchanged. -/
theorem C3_invalid_address_filtering (p : List String) (inp : TickInput)
    (u : String) (hcu : inp.currentUrl = Except.ok u)
    (hinv : u = "" ∨ pyStartsWith u "about:" = true) :
    tickActs p inp = [Act.sleep]
    ∧ applyActs p (tickActs p inp) = p
    ∧ (∀ w, Act.extractCall w ∉ tickActs p inp)
    ∧ (∀ w t, Act.summarizeCall w t ∉ tickActs p inp) := by
  have hbad : invalidUrl u = true := by
    rcases hinv with h | h
    · subst h; rfl
    · simp [invalidUrl, h]
  have heq : tickActs p inp = [Act.sleep] := by
    simp [tickActs, hcu, hbad]
  refine ⟨heq, by rw [heq]; rfl, ?_, ?_⟩
  · intro w
    rw [heq]; simp
  · intro w t
    rw [heq]; simp

/-- Concrete check of C3 on the blank-tab address. -/
theorem C3_invalid_address_filtering_witness :
    tickActs ["https://a.test/"]
        ⟨Except.ok "about:blank", Except.ok "T", Except.ok "S"⟩ = [Act.sleep]
    ∧ applyActs ["https://a.test/"]
        (tickActs ["https://a.test/"]
          ⟨Except.ok "about:blank", Except.ok "T", Except.ok "S"⟩)
        = ["https://a.test/"]
    ∧ Act.extractCall "about:blank" ∉ tickActs ["https://a.test/"]
        ⟨Except.ok "about:blank", Except.ok "T", Except.ok "S"⟩ :=
  ⟨(C3_invalid_address_filtering ["https://a.test/"]
      ⟨Except.ok "about:blank", Except.ok "T", Except.ok "S"⟩ "about:blank"
      rfl (Or.inr (by decide))).1,
   (C3_invalid_address_filtering ["https://a.test/"]
      ⟨Except.ok "about:blank", Except.ok "T", Except.ok "S"⟩ "about:blank"
      rfl (Or.inr (by decide))).2.1,
   (C3_invalid_address_filtering ["https://a.test/"]
      ⟨Except.ok "about:blank", Except.ok "T", Except.ok "S"⟩ "about:blank"
      rfl (Or.inr (by decide))).2.2.1 "about:blank"⟩

/-- C4: Dedup/ordering scenario — observing the addresses
`["", "about:blank", p1, p1, p2]` with both stages always succeeding
produces exactly two summarization invocations, the first for `p1`
and the second for `p2`; `p1` is summarized once although it is
observed twice. -/
theorem C4_dedup_ordering_scenario :
    (run [] c4Inputs).filter isSummarizeCall =
      [Act.summarizeCall "https://x.test/p1" "T1",
       Act.summarizeCall "https://x.test/p2" "T2"] := by decide

/-- C10: Fixed summarization request shape — the request built at the
pipeline's call site of the summarizer is a deterministic function of
the extracted text: model identifier `"gpt-4"` and exactly one user
message whose content is the literal text of line 101 followed by the
extracted page text. -/
theorem C10_fixed_request_shape (text : String) :
    main_summarize_request text =
      { model := "gpt-4",
        messages := [{ role := "user",
                       content := "Summarize this text:\n" ++ text }] } := rfl

end Glance

namespace Glance

/-- C9: Exact-string deduplication — a tick only ever records the
exact address string it observed (no canonicalization of any kind),
and two addresses that differ in any character are processed and
summarized independently: observed one after the other with both
stages succeeding, each gets its own summary emission. -/
theorem C9_exact_string_dedup (u v tu tv su sv : String) (huv : u ≠ v)
    (hu : invalidUrl u = false) (hv : invalidUrl v = false) :
    (∀ (p : List String) (inp : TickInput) (w A : String),
        inp.currentUrl = Except.ok w → A ∈ applyActs p (tickActs p inp) →
          A ∈ p ∨ A = w)
    ∧ Act.emitSummary u su ∈
        run [] [⟨Except.ok u, Except.ok tu, Except.ok su⟩,
                ⟨Except.ok v, Except.ok tv, Except.ok sv⟩]
    ∧ Act.emitSummary v sv ∈
        run [] [⟨Except.ok u, Except.ok tu, Except.ok su⟩,
                ⟨Except.ok v, Except.ok tv, Except.ok sv⟩] := by
  have hvu : v ≠ u := fun h => huv h.symm
  have h1 : tickActs []
      (⟨Except.ok u, Except.ok tu, Except.ok su⟩ : TickInput) =
      [Act.announce u, Act.extractCall u, Act.summarizeCall u tu,
       Act.emitSummary u su, Act.addProcessed u, Act.sleep] := by
    simp [tickActs, hu]
  have hst : applyActs []
      (tickActs [] (⟨Except.ok u, Except.ok tu, Except.ok su⟩ : TickInput))
      = [u] := by
    rw [h1]; rfl
  have h2 : tickActs [u]
      (⟨Except.ok v, Except.ok tv, Except.ok sv⟩ : TickInput) =
      [Act.announce v, Act.extractCall v, Act.summarizeCall v tv,
       Act.emitSummary v sv, Act.addProcessed v, Act.sleep] := by
    simp [tickActs, hv, hvu]
  refine ⟨?_, ?_, ?_⟩
  · intro p inp w A hcu hA
    rcases (mem_applyActs_iff A p _).mp hA with h | h
    · exact Or.inl h
    · obtain ⟨_, t, s, hcu0, _⟩ := addProcessed_mem_tickActs h
      rw [hcu] at hcu0
      injection hcu0 with h0
      exact Or.inr h0.symm
  · rw [run_cons]
    refine List.mem_append.mpr (Or.inl ?_)
    rw [h1]; simp
  · rw [run_cons]
    refine List.mem_append.mpr (Or.inr ?_)
    rw [hst, run_cons]
    refine List.mem_append.mpr (Or.inl ?_)
    rw [h2]; simp

/-- Concrete check of C9: two addresses differing only in a trailing
slash are each summarized. -/
theorem C9_exact_string_dedup_witness :
    Act.emitSummary "https://x.test/p" "SA" ∈
        run [] [⟨Except.ok "https://x.test/p", Except.ok "TA", Except.ok "SA"⟩,
                ⟨Except.ok "https://x.test/p/", Except.ok "TB", Except.ok "SB"⟩]
    ∧ Act.emitSummary "https://x.test/p/" "SB" ∈
        run [] [⟨Except.ok "https://x.test/p", Except.ok "TA", Except.ok "SA"⟩,
                ⟨Except.ok "https://x.test/p/", Except.ok "TB", Except.ok "SB"⟩] :=
  ⟨(C9_exact_string_dedup "https://x.test/p" "https://x.test/p/" "TA" "TB"
      "SA" "SB" (by decide) (by decide) (by decide)).2.1,
   (C9_exact_string_dedup "https://x.test/p" "https://x.test/p/" "TA" "TB"
      "SA" "SB" (by decide) (by decide) (by decide)).2.2⟩

/-- C2: Failure non-poisoning — if extraction raises, or extraction
succeeds and summarization raises, while processing a fresh valid
address A, the tick leaves the processed set unchanged (A is not
recorded), and a next tick observing A re-runs the pipeline in full:
it announces A, invokes extraction for A, and on extraction success
invokes summarization. -/
theorem C2_failure_non_poisoning (p : List String) (A : String)
    (inp1 inp2 : TickInput) (hv : invalidUrl A = false) (hA : A ∉ p)
    (h1 : inp1.currentUrl = Except.ok A)
    (hfail : (∃ e, inp1.extractResult = Except.error e) ∨
             (∃ t e, inp1.extractResult = Except.ok t ∧
                inp1.summarizeResult = Except.error e))
    (h2 : inp2.currentUrl = Except.ok A) :
    applyActs p (tickActs p inp1) = p
    ∧ A ∉ applyActs p (tickActs p inp1)
    ∧ Act.announce A ∈ tickActs (applyActs p (tickActs p inp1)) inp2
    ∧ Act.extractCall A ∈ tickActs (applyActs p (tickActs p inp1)) inp2
    ∧ ∀ t, inp2.extractResult = Except.ok t →
        Act.summarizeCall A t ∈ tickActs (applyActs p (tickActs p inp1)) inp2 := by
  have hstate : applyActs p (tickActs p inp1) = p := by
    rcases hfail with ⟨e, hex⟩ | ⟨t, e, hex, hsu⟩
    · have heq : tickActs p inp1 =
          [Act.announce A, Act.extractCall A, Act.extractError A e,
           Act.sleep] := by
        simp [tickActs, h1, hv, hA, hex]
      rw [heq]; rfl
    · have heq : tickActs p inp1 =
          [Act.announce A, Act.extractCall A, Act.summarizeCall A t,
           Act.summarizeError e, Act.sleep] := by
        simp [tickActs, h1, hv, hA, hex, hsu]
      rw [heq]; rfl
  obtain ⟨ha, he, hs⟩ :=
    processing_tick hv
      (show A ∉ applyActs p (tickActs p inp1) by rw [hstate]; exact hA) h2
  exact ⟨hstate, by rw [hstate]; exact hA, ha, he, hs⟩

/-- Concrete check of C2: extraction fails once on a fresh address;
the set is unchanged and the next tick observing the same address
announces, extracts and — extraction now succeeding — summarizes. -/
theorem C2_failure_non_poisoning_witness :
    applyActs [] (tickActs []
        ⟨Except.ok "https://a.test/y", Except.error "timeout", Except.ok "S"⟩)
      = []
    ∧ Act.summarizeCall "https://a.test/y" "T" ∈
        tickActs (applyActs [] (tickActs []
            ⟨Except.ok "https://a.test/y", Except.error "timeout", Except.ok "S"⟩))
          ⟨Except.ok "https://a.test/y", Except.ok "T", Except.ok "S"⟩ :=
  ⟨(C2_failure_non_poisoning [] "https://a.test/y"
      ⟨Except.ok "https://a.test/y", Except.error "timeout", Except.ok "S"⟩
      ⟨Except.ok "https://a.test/y", Except.ok "T", Except.ok "S"⟩
      (by decide) (by simp) rfl (Or.inl ⟨"timeout", rfl⟩) rfl).1,
   (C2_failure_non_poisoning [] "https://a.test/y"
      ⟨Except.ok "https://a.test/y", Except.error "timeout", Except.ok "S"⟩
      ⟨Except.ok "https://a.test/y", Except.ok "T", Except.ok "S"⟩
      (by decide) (by simp) rfl (Or.inl ⟨"timeout", rfl⟩) rfl).2.2.2.2 "T" rfl⟩

end Glance

namespace Glance

/-- Any member of the processed set after a run was either there at
the start or had its summary emitted during the run. -/
lemma mem_runState_cases (p : List String) (inps : List TickInput)
    (A : String) (hA : A ∈ runState p inps) :
    A ∈ p ∨ ∃ s, Act.emitSummary A s ∈ run p inps := by
  induction inps generalizing p with
  | nil => exact Or.inl hA
  | cons inp rest ih =>
    rw [runState_cons] at hA
    rcases ih (applyActs p (tickActs p inp)) hA with h | ⟨s, hs⟩
    · rcases (mem_applyActs_iff A p _).mp h with h | h
      · exact Or.inl h
      · obtain ⟨_, t, s, _, _, _, _, heq⟩ := addProcessed_mem_tickActs h
        refine Or.inr ⟨s, ?_⟩
        rw [run_cons]
        refine List.mem_append.mpr (Or.inl ?_)
        rw [heq]; simp
    · refine Or.inr ⟨s, ?_⟩
      rw [run_cons]
      exact List.mem_append.mpr (Or.inr hs)

/-- C5: Success-path ordering invariant — an address enters the
processed set only in a tick whose stages all succeeded for exactly
that address, and in such a tick the actions are literally announce,
extract, summarize, emit the summary, then record the address (the
emission strictly precedes the recording); consequently every member
of the processed set at any point of a run either was there initially
or had a summary emitted for it during the run. -/
theorem C5_success_path_invariant (p : List String) (inps : List TickInput) :
    (∀ (q : List String) (inp : TickInput) (A : String),
        A ∉ q → A ∈ applyActs q (tickActs q inp) →
          ∃ t s, inp.currentUrl = Except.ok A ∧
            inp.extractResult = Except.ok t ∧
            inp.summarizeResult = Except.ok s ∧
            tickActs q inp = [Act.announce A, Act.extractCall A,
              Act.summarizeCall A t, Act.emitSummary A s, Act.addProcessed A,
              Act.sleep])
    ∧ ∀ A, A ∈ runState p inps →
        A ∈ p ∨ ∃ s, Act.emitSummary A s ∈ run p inps := by
  constructor
  · intro q inp A hAq hA
    rcases (mem_applyActs_iff A q _).mp hA with h | h
    · exact absurd h hAq
    · obtain ⟨_, t, s, hcu, _, hex, hsu, heq⟩ := addProcessed_mem_tickActs h
      exact ⟨t, s, hcu, hex, hsu, heq⟩
  · exact fun A hA => mem_runState_cases p inps A hA

/-- Concrete check of C5: a tick that records an address has exactly
the success action sequence, with the emission before the recording. -/
theorem C5_success_path_invariant_witness :
    tickActs [] ⟨Except.ok "https://a.test/z", Except.ok "T", Except.ok "S"⟩ =
      [Act.announce "https://a.test/z", Act.extractCall "https://a.test/z",
       Act.summarizeCall "https://a.test/z" "T",
       Act.emitSummary "https://a.test/z" "S",
       Act.addProcessed "https://a.test/z", Act.sleep] := by
  obtain ⟨t, s, hcu, hex, hsu, heq⟩ :=
    (C5_success_path_invariant [] []).1 []
      ⟨Except.ok "https://a.test/z", Except.ok "T", Except.ok "S"⟩
      "https://a.test/z" (by simp) (by decide)
  injection hex with ht
  injection hsu with hs
  rw [heq, ← ht, ← hs]

/-- C6: Transient-failure containment — the loop performs exactly one
wait per tick input, so every tick (failing or not) ends in
wait-then-retry and the loop reaches every subsequent tick; each
tick's last action is the wait; and a failure of the address read,
the extraction stage, or the summarization stage is logged within the
tick instead of propagating. -/
theorem C6_transient_failure_containment (p : List String) (inp : TickInput)
    (inps : List TickInput) :
    (run p inps).count Act.sleep = inps.length
    ∧ (tickActs p inp).getLast? = some Act.sleep
    ∧ (∀ e, inp.currentUrl = Except.error e →
        Act.urlError e ∈ tickActs p inp)
    ∧ (∀ u e, inp.currentUrl = Except.ok u → invalidUrl u = false → u ∉ p →
        inp.extractResult = Except.error e →
        Act.extractError u e ∈ tickActs p inp)
    ∧ (∀ u t e, inp.currentUrl = Except.ok u → invalidUrl u = false → u ∉ p →
        inp.extractResult = Except.ok t →
        inp.summarizeResult = Except.error e →
        Act.summarizeError e ∈ tickActs p inp) := by
  refine ⟨count_sleep_run p inps, getLast_tickActs p inp, ?_, ?_, ?_⟩
  · intro e h
    simp [tickActs, h]
  · intro u e hcu hinv hmem hex
    simp [tickActs, hcu, hinv, hmem, hex]
  · intro u t e hcu hinv hmem hex hsu
    simp [tickActs, hcu, hinv, hmem, hex, hsu]

/-- Concrete check of C6: a run whose only tick fails its URL read
still performs its single wait, and the failure is logged. -/
theorem C6_transient_failure_containment_witness :
    (run [] [⟨Except.error "boom", Except.ok "T", Except.ok "S"⟩]).count
        Act.sleep = 1
    ∧ Act.urlError "boom" ∈
        tickActs [] ⟨Except.error "boom", Except.ok "T", Except.ok "S"⟩ :=
  ⟨(C6_transient_failure_containment []
      ⟨Except.error "boom", Except.ok "T", Except.ok "S"⟩
      [⟨Except.error "boom", Except.ok "T", Except.ok "S"⟩]).1,
   (C6_transient_failure_containment []
      ⟨Except.error "boom", Except.ok "T", Except.ok "S"⟩
      [⟨Except.error "boom", Except.ok "T", Except.ok "S"⟩]).2.2.1 "boom" rfl⟩

end Glance

namespace Glance

/-- C7 counterexample: the extraction step itself drives navigation —
`extract_text_from_url` issues `driver.get(url)` (line 89), a
navigation command, before reading the page text, so extraction does
not merely read the already-loaded page. -/
theorem C7_passive_extraction_counterexample :
    DriverCall.get "https://x.test/p1" ∈
      extract_text_from_url_calls "https://x.test/p1" := by decide

/-- C7 amended: extraction is invoked only for the tick's current
address (fresh and valid at that tick), and the only navigation the
extraction step performs is the `driver.get` re-navigation to that
same address — it never navigates anywhere else. -/
theorem C7_passive_extraction_amended (p : List String) (inp : TickInput)
    (u : String) (h : Act.extractCall u ∈ tickActs p inp) :
    inp.currentUrl = Except.ok u
    ∧ invalidUrl u = false
    ∧ u ∉ p
    ∧ ∀ c, DriverCall.get c ∈ extract_text_from_url_calls u → c = u := by
  obtain ⟨hcu, hinv, hmem⟩ := extractCall_mem_tickActs h
  refine ⟨hcu, hinv, hmem, ?_⟩
  intro c hc
  simp [extract_text_from_url_calls] at hc
  exact hc

/-- Concrete check of amended C7: an extraction invocation's address
is the tick's current address, and extraction's navigation target is
that address itself. -/
theorem C7_passive_extraction_amended_witness :
    (⟨Except.ok "https://x.test/p1", Except.ok "T",
        Except.ok "S"⟩ : TickInput).currentUrl = Except.ok "https://x.test/p1"
    ∧ "https://x.test/p1" = "https://x.test/p1" :=
  ⟨(C7_passive_extraction_amended []
      ⟨Except.ok "https://x.test/p1", Except.ok "T", Except.ok "S"⟩
      "https://x.test/p1" (by decide)).1,
   (C7_passive_extraction_amended []
      ⟨Except.ok "https://x.test/p1", Except.ok "T", Except.ok "S"⟩
      "https://x.test/p1" (by decide)).2.2.2 "https://x.test/p1" (by decide)⟩

/-- C8 counterexample: an interrupt arriving during the trailing wait
of a tick that had already summarized and recorded its address (five
of the tick's six actions executed, so the tick was interrupted
before completing) leaves that address in the processed set: the
interrupted tick did add an address. -/
theorem C8_interrupt_shutdown_counterexample :
    5 < (run []
        [⟨Except.ok "https://x.test/p1", Except.ok "T", Except.ok "S"⟩]).length
    ∧ applyActs []
        (runInterrupted
          [⟨Except.ok "https://x.test/p1", Except.ok "T", Except.ok "S"⟩] 5)
      = ["https://x.test/p1"] := by decide

/-- C8 amended: whenever the run is interrupted, at any point, the
`finally` clause releases the session handle exactly once; and if the
interrupt arrives before the current tick's summary emission (in
particular mid-summarization, so the executed portion of the tick
contains no summary emission), the interrupted tick adds no address
to the processed set. -/
theorem C8_interrupt_shutdown_amended (inps : List TickInput) (k : Nat)
    (p : List String) (inp : TickInput) (j : Nat)
    (hj : ((tickActs p inp).take j).any isEmit = false) :
    (runInterrupted inps k).count Act.quitDriver = 1
    ∧ applyActs p ((tickActs p inp).take j) = p := by
  constructor
  · unfold runInterrupted
    rw [List.count_append]
    have h0 : Act.quitDriver ∉ (run [] inps).take k :=
      fun h => quitDriver_not_mem_run [] inps (List.take_subset _ _ h)
    rw [List.count_eq_zero.mpr h0]
    simp
  · have hnoadd : ∀ A, Act.addProcessed A ∉ (tickActs p inp).take j := by
      intro A hA
      have hmem : Act.addProcessed A ∈ tickActs p inp :=
        List.take_subset _ _ hA
      obtain ⟨_, t, s, _, _, _, _, heq⟩ := addProcessed_mem_tickActs hmem
      rw [heq] at hA hj
      rcases j with _|_|_|_|_|j <;>
        simp [isEmit, List.take_succ_cons] at hA hj
    exact applyActs_eq_of_no_add hnoadd

/-- Concrete check of amended C8: interrupt right after the
summarization invocation (mid-summarization, three actions into the
tick): the driver is released exactly once and nothing was added to
the processed set. -/
theorem C8_interrupt_shutdown_amended_witness :
    (runInterrupted
        [⟨Except.ok "https://x.test/p1", Except.ok "T", Except.ok "S"⟩]
        3).count Act.quitDriver = 1
    ∧ applyActs []
        ((tickActs []
            ⟨Except.ok "https://x.test/p1", Except.ok "T", Except.ok "S"⟩).take 3)
      = [] :=
  C8_interrupt_shutdown_amended
    [⟨Except.ok "https://x.test/p1", Except.ok "T", Except.ok "S"⟩] 3
    [] ⟨Except.ok "https://x.test/p1", Except.ok "T", Except.ok "S"⟩ 3
    (by decide)

end Glance
